import Mathlib

/-!
Verification of the bronson directory-housekeeping service (`app/main.py`)
against its natural-language specification.

The Python source is shallowly embedded:

* A file visible to the recursive walk (`os.walk`) is an `FSFile`: its full
  path string, its base name, its size, whether `stat` succeeds on it and
  whether `unlink` succeeds on it.  The filesystem reachable from the
  configured root is the list of such files, in walk order.
* `re.search(pattern, name, re.IGNORECASE)` is an external library primitive;
  it is abstracted as a matcher function.  Because compiling an invalid
  pattern raises `re.error`, the faithful matcher type is
  `String → String → Except String Bool` (`Except.error` models the raised
  exception); the everyday case of a valid pattern set is the total matcher
  `String → String → Bool`.
* `raise HTTPException(status, detail)` is modelled by returning the
  `HTTPException` record; a function that may raise returns `Option` or
  `Except` of it.
* `Path(s).resolve()` for the string literals in the deny/allow lists is
  modelled as the identity (the POSIX assumption the spec itself makes:
  `/tmp`, `/etc`, ... resolve to themselves); for the configured directory
  the embedding takes the already-resolved string as input.
-/

namespace Bronson

/-- A file as seen by the recursive directory walk: full path, base name,
size in bytes, whether `stat` succeeds on it, whether `unlink` succeeds. -/
structure FSFile where
  path : String
  name : String
  size : Nat
  statOk : Bool
  unlinkOk : Bool
deriving DecidableEq, Repr

/-- `fastapi.HTTPException`, the error value raised by the service. -/
structure HTTPException where
  status_code : Nat
  detail : String
deriving DecidableEq, Repr

/-- The denylist of critical system directories (`critical_dirs` in
`validate_directory`). -/
def critical_dirs : List String :=
  ["/", "/home", "/usr", "/etc", "/var", "/bin", "/sbin", "/boot", "/root"]

/-- The allowlist of temp-directory roots (`allowed_tmp_paths` in
`validate_directory`, with `Path(p).resolve()` the identity on POSIX). -/
def allowed_tmp_paths : List String :=
  ["/tmp", "/private/tmp", "/private/var"]

/-- Python's `s.startswith(p)`, embedded on the character lists of the two
strings (extensionally `String.startsWith`, but kernel-computable). -/
def strStartsWith (s p : String) : Bool :=
  p.data.isPrefixOf s.data

/-- The code's containment test: `dir_str == base or
dir_str.startswith(base + "/")`. -/
def pathWithin (dir_str base : String) : Bool :=
  dir_str == base || strStartsWith dir_str (base ++ "/")

/-- `validate_directory(directory_path, cleanup_dir, ...)` from the source,
with metrics side effects dropped.  `pathExists` models
`directory_path.exists()` and `dir_str` models
`str(directory_path.resolve())`.  Returns the raised `HTTPException`, or
`none` when validation passes. -/
def validate_directory (pathExists : Bool) (cleanup_dir dir_str : String) :
    Option HTTPException :=
  if !pathExists then
    some ⟨404, "Configured directory " ++ cleanup_dir ++ " not found"⟩
  else if allowed_tmp_paths.any (fun tmp_path => pathWithin dir_str tmp_path) then
    none
  else if critical_dirs.any (fun sys_dir => pathWithin dir_str sys_dir) then
    some ⟨400, "Configured cleanup directory is in a protected system location"⟩
  else
    none

/-- Modelled from the spec's words (not the source): `d` "equals, or is a
descendant of" `root`.  A descendant of the filesystem root `/` is any
absolute path; for every other root it is a path extending the root with a
`/` separator.  Used only to state claims that speak in these terms, for
comparison with the source's `pathWithin`. -/
def specEqualsOrDescendant (d root : String) : Bool :=
  if root == "/" then strStartsWith d "/"
  else d == root || strStartsWith d (root ++ "/")

/-- The `ProtectedPath` error value raised by `validate_directory`. -/
def protectedPathError : HTTPException :=
  ⟨400, "Configured cleanup directory is in a protected system location"⟩

/-- The `DirectoryNotFound` error value raised by `validate_directory`. -/
def directoryNotFoundError (cleanup_dir : String) : HTTPException :=
  ⟨404, "Configured directory " ++ cleanup_dir ++ " not found"⟩

/-- `DEFAULT_UNWANTED_PATTERNS` from the source, as the literal regex
strings. -/
def DEFAULT_UNWANTED_PATTERNS : List String :=
  ["www\\.YTS\\.MX\\.jpg$",
   "www\\.YTS\\.AM\\.jpg$",
   "www\\.YTS\\.LT\\.jpg$",
   "WWW\\.YTS\\.[A-Z]+\\.jpg$",
   "WWW\\.YIFY-TORRENTS\\.COM\\.jpg$",
   "YIFYStatus\\.com\\.txt$",
   "YTSProxies\\.com\\.txt$",
   "YTSYifyUP.*\\(TOR\\)\\.txt$",
   "\\.DS_Store$",
   "Thumbs\\.db$",
   "desktop\\.ini$",
   "\\.tmp$",
   "\\.temp$",
   "\\.log$",
   "\\.cache$",
   "\\.bak$",
   "\\.backup$"]

/-- The three result collections built by `find_unwanted_files`:
`found_files` (paths, in walk order), `file_sizes` (the dict, as an
association list in insertion order) and `pattern_matches` (likewise). -/
structure ScanData where
  found_files : List String
  file_sizes : List (String × Nat)
  pattern_matches : List (String × String)
deriving DecidableEq, Repr

/-- `find_unwanted_files(directory_path, patterns, ...)` from the source for
a valid pattern set: `m p name` models `re.search(p, name, re.IGNORECASE)
is not None`.  For each walked file, the patterns are tried in order and the
first match is recorded (the `break`); `stat` failure records size 0
(metrics observations dropped). -/
def find_unwanted_files (m : String → String → Bool)
    (files : List FSFile) (patterns : List String) : ScanData :=
  match files with
  | [] => ⟨[], [], []⟩
  | f :: rest =>
    match patterns.find? (fun p => m p f.name) with
    | none => find_unwanted_files m rest patterns
    | some p =>
      let d := find_unwanted_files m rest patterns
      ⟨f.path :: d.found_files,
       (f.path, if f.statOk then f.size else 0) :: d.file_sizes,
       (f.path, p) :: d.pattern_matches⟩

/-- One `re.search(pattern, name, re.IGNORECASE)` call for a possibly
invalid pattern: `Except.error msg` models the `re.error` raised when the
pattern does not compile. -/
def tryPatterns (pm : String → String → Except String Bool)
    (patterns : List String) (name : String) : Except String (Option String) :=
  match patterns with
  | [] => .ok none
  | p :: rest =>
    match pm p name with
    | .error msg => .error msg
    | .ok true => .ok (some p)
    | .ok false => tryPatterns pm rest name

/-- `find_unwanted_files` with the fallible matcher: an exception raised by
`re.search` propagates out of the walk (caught only by the endpoint's outer
`except`). -/
def find_unwanted_filesE (pm : String → String → Except String Bool)
    (files : List FSFile) (patterns : List String) : Except String ScanData :=
  match files with
  | [] => .ok ⟨[], [], []⟩
  | f :: rest =>
    match tryPatterns pm patterns f.name with
    | .error msg => .error msg
    | .ok none => find_unwanted_filesE pm rest patterns
    | .ok (some p) =>
      match find_unwanted_filesE pm rest patterns with
      | .error msg => .error msg
      | .ok d =>
        .ok ⟨f.path :: d.found_files,
             (f.path, if f.statOk then f.size else 0) :: d.file_sizes,
             (f.path, p) :: d.pattern_matches⟩

/-- The matcher for a pattern set in which every pattern compiles: no call
raises. -/
def okLift (m : String → String → Bool) : String → String → Except String Bool :=
  fun p name => .ok (m p name)

/-- The `for file_path_str in found_files` removal loop of
`cleanup_unwanted_files`.  `file_path.unlink()` succeeds when a file at
that path is present and its `unlinkOk` holds, removing it from the
filesystem; otherwise the raised exception is caught and an error message
recorded, and the loop continues.  Returns the filesystem after the loop,
`removed_files` and `errors` (both in loop order). -/
def cleanupRemove (dry_run : Bool) :
    List String → List FSFile → List FSFile × List String × List String
  | [], fs => (fs, [], [])
  | path :: rest, fs =>
    if dry_run then cleanupRemove dry_run rest fs
    else
      match fs.find? (fun f => f.path == path) with
      | some f =>
        if f.unlinkOk then
          let r := cleanupRemove dry_run rest (fs.eraseP (fun g => g.path == path))
          (r.1, path :: r.2.1, r.2.2)
        else
          let r := cleanupRemove dry_run rest fs
          (r.1, r.2.1, ("Failed to remove " ++ path) :: r.2.2)
      | none =>
        let r := cleanupRemove dry_run rest fs
        (r.1, r.2.1, ("Failed to remove " ++ path) :: r.2.2)

/-- The JSON body returned by `POST /api/v1/cleanup/files` (the
`directory` and `patterns_used` echo fields dropped). -/
structure CleanupResult where
  dry_run : Bool
  files_found : Nat
  files_removed : Nat
  errors : Nat
  found_files : List String
  removed_files : List String
  error_details : List String
deriving DecidableEq, Repr

/-- The body of `cleanup_unwanted_files` after validation, for a valid
pattern set: scan, then the removal loop.  Returns the response record and
the filesystem state after the call. -/
def cleanupBody (m : String → String → Bool) (dry_run : Bool)
    (fs : List FSFile) (patterns : List String) :
    CleanupResult × List FSFile :=
  let d := find_unwanted_files m fs patterns
  let r := cleanupRemove dry_run d.found_files fs
  (⟨dry_run, d.found_files.length, r.2.1.length, r.2.2.length,
    d.found_files, r.2.1, r.2.2⟩, r.1)

/-- The `POST /api/v1/cleanup/files` endpoint `cleanup_unwanted_files`:
resolve and validate the configured directory (any exception there is
re-raised as HTTP 400 with the original message appended), then scan and
remove; an exception escaping the scan (e.g. `re.error`) becomes the HTTP
500 operation error.  Per-file removal failures are caught inside the loop
and never escape. -/
def cleanup_unwanted_files (pm : String → String → Except String Bool)
    (dry_run : Bool) (pathExists : Bool) (cleanup_dir dir_str : String)
    (fs : List FSFile) (patternsOpt : Option (List String)) :
    Except HTTPException (CleanupResult × List FSFile) :=
  let patterns := patternsOpt.getD DEFAULT_UNWANTED_PATTERNS
  match validate_directory pathExists cleanup_dir dir_str with
  | some e => .error ⟨400, "Invalid cleanup directory: " ++ e.detail⟩
  | none =>
    match find_unwanted_filesE pm fs patterns with
    | .error msg => .error ⟨500, "Error during cleanup: " ++ msg⟩
    | .ok d =>
      let r := cleanupRemove dry_run d.found_files fs
      .ok (⟨dry_run, d.found_files.length, r.2.1.length, r.2.2.length,
            d.found_files, r.2.1, r.2.2⟩, r.1)

/-- The JSON body returned by `GET /api/v1/cleanup/scan` (the `directory`,
`patterns_used` and floating-point `total_size_mb` fields dropped). -/
structure ScanResponse where
  files_found : Nat
  total_size_bytes : Nat
  found_files : List String
  file_sizes : List (String × Nat)
deriving DecidableEq, Repr

/-- The `GET /api/v1/cleanup/scan` endpoint `scan_for_unwanted_files`:
validation (exceptions re-raised as HTTP 400), then the scan; an exception
escaping the scan becomes the HTTP 500 operation error. -/
def scan_for_unwanted_files (pm : String → String → Except String Bool)
    (pathExists : Bool) (cleanup_dir dir_str : String)
    (fs : List FSFile) (patternsOpt : Option (List String)) :
    Except HTTPException ScanResponse :=
  let patterns := patternsOpt.getD DEFAULT_UNWANTED_PATTERNS
  match validate_directory pathExists cleanup_dir dir_str with
  | some e => .error ⟨400, "Invalid cleanup directory: " ++ e.detail⟩
  | none =>
    match find_unwanted_filesE pm fs patterns with
    | .error msg => .error ⟨500, "Error during scan: " ++ msg⟩
    | .ok d =>
      .ok ⟨d.found_files.length, (d.file_sizes.map (fun e => e.2)).sum,
           d.found_files, d.file_sizes⟩

/-- An entry yielded by `directory_path.iterdir()`: its base name and
whether `item.is_dir()` holds. -/
structure DirEntry where
  name : String
  is_dir : Bool
deriving DecidableEq, Repr

/-- The `for item in directory_path.iterdir()` loop of
`get_subdirectories`, appending the name of each directory entry. -/
def subdirLoop : List DirEntry → List String → List String
  | [], acc => acc
  | item :: rest, acc =>
    subdirLoop rest (if item.is_dir then acc ++ [item.name] else acc)

/-- `get_subdirectories(directory_path, ...)` from the source (metrics
dropped).  `iterdir = none` models `iterdir()` raising (missing directory,
permission denied): the `except` swallows it and the empty list built so
far is returned. -/
def get_subdirectories (iterdir : Option (List DirEntry)) : List String :=
  match iterdir with
  | none => []
  | some items => subdirLoop items []

/-- The JSON body returned by `GET /api/v1/compare/directories` (path echo
and verbose listing fields dropped). -/
structure ComparisonResult where
  duplicates : List String
  duplicate_count : Nat
  total_cleanup_subdirectories : Nat
  total_target_subdirectories : Nat
deriving DecidableEq, Repr

/-- One configured root as the compare endpoint sees it: whether the
resolved path exists, the configured string (for error messages), the
resolved string, and the outcome of `iterdir()` on it. -/
structure RootView where
  pathExists : Bool
  cfg : String
  resolved : String
  iterdir : Option (List DirEntry)
deriving DecidableEq, Repr

/-- `set(a).intersection(set(b))` on name lists: the duplicates list, one
occurrence per distinct common name. -/
def nameIntersection (a b : List String) : List String :=
  a.dedup.filter (fun n => b.contains n)

/-- The `GET /api/v1/compare/directories` endpoint `compare_directories`:
validate both roots (the `except HTTPException: raise` clause re-raises
validator errors unchanged), list both sides' subdirectories, and report
the name intersection with both totals. -/
def compare_directories (a b : RootView) :
    Except HTTPException ComparisonResult :=
  match validate_directory a.pathExists a.cfg a.resolved with
  | some e => .error e
  | none =>
    match validate_directory b.pathExists b.cfg b.resolved with
    | some e => .error e
    | none =>
      let cleanup_subdirs := get_subdirectories a.iterdir
      let target_subdirs := get_subdirectories b.iterdir
      let duplicates := nameIntersection cleanup_subdirs target_subdirs
      .ok ⟨duplicates, duplicates.length,
           cleanup_subdirs.length, target_subdirs.length⟩

/-! ## Helper lemmas -/

/-- On the three allowlisted temp roots (none of which is `/`) the spec's
equals-or-descendant notion coincides with the code's containment test. -/
theorem allow_any_spec (ds : String) :
    (allowed_tmp_paths.any fun t => specEqualsOrDescendant ds t)
      = allowed_tmp_paths.any (fun t => pathWithin ds t) := by
  simp [allowed_tmp_paths, specEqualsOrDescendant, pathWithin]

/-- Membership in the duplicates list is exact-name membership on both
sides. -/
theorem mem_nameIntersection (a b : List String) (x : String) :
    x ∈ nameIntersection a b ↔ x ∈ a ∧ x ∈ b := by
  simp [nameIntersection, List.mem_filter, List.mem_dedup]

/-- Characterisation of the `get_subdirectories` accumulator loop. -/
theorem mem_subdirLoop (items : List DirEntry) :
    ∀ (acc : List String) (x : String),
      x ∈ subdirLoop items acc ↔
        x ∈ acc ∨ ∃ e, e ∈ items ∧ e.is_dir = true ∧ e.name = x := by
  induction items with
  | nil => simp [subdirLoop]
  | cons it rest ih =>
    intro acc x
    by_cases hd : it.is_dir
    · simp [subdirLoop, hd, ih]
      tauto
    · simp [subdirLoop, hd, ih]

/-! ## Claim C1 -/

/-- C1, counterexample: `/data` (the default cleanup directory) exists, is
not equal to or a descendant of any allowlisted temp root, and is a
descendant of the denylisted root `/`, yet `validate_directory` accepts it
instead of failing with ProtectedPath: the code tests descendancy of `/`
as `startswith("//")`, which no ordinary resolved path satisfies. -/
theorem C1_counterexample :
    specEqualsOrDescendant "/data" "/" = true ∧
    (allowed_tmp_paths.any fun t => specEqualsOrDescendant "/data" t) = false ∧
    validate_directory true "/data" "/data" = none := by
  decide

/-- C1, amended: for every path that exists on disk, is not within an
allowlisted temp root, and lies within one of the denylisted roots by the
code's containment test (equal to the root, or extending it with a `/`
separator — which for the root `/` demands a leading `//`, so paths merely
under `/` but under no other denylisted root are permitted),
`validate_directory` fails with the ProtectedPath error (HTTP 400,
"protected system location") rather than permitting the operation. -/
theorem C1_validate_protected (cd ds : String)
    (hallow : allowed_tmp_paths.any (fun t => pathWithin ds t) = false)
    (hdeny : critical_dirs.any (fun c => pathWithin ds c) = true) :
    validate_directory true cd ds = some protectedPathError := by
  unfold validate_directory
  simp [hallow, hdeny, protectedPathError]

/-- C1, witness: `/etc/nginx` is denylisted and not allowlisted, and
`validate_directory` rejects it with ProtectedPath. -/
theorem C1_witness :
    allowed_tmp_paths.any (fun t => pathWithin "/etc/nginx" t) = false ∧
    critical_dirs.any (fun c => pathWithin "/etc/nginx" c) = true ∧
    validate_directory true "/etc/nginx" "/etc/nginx" = some protectedPathError :=
  ⟨by decide, by decide,
   C1_validate_protected "/etc/nginx" "/etc/nginx" (by decide) (by decide)⟩

/-! ## Claim C5 -/

/-- C5: every existing path that equals or is a descendant of an
allowlisted temp root passes validation — the allowlist is tested before
the denylist and short-circuits it, so no denylist condition on the path
can make validation fail. -/
theorem C5_allowlist_short_circuits (cd ds : String)
    (hallow : (allowed_tmp_paths.any fun t => specEqualsOrDescendant ds t) = true) :
    validate_directory true cd ds = none := by
  rw [allow_any_spec] at hallow
  unfold validate_directory
  simp [hallow]

/-- C5, witness: `/tmp/work` is under the allowlisted `/tmp` and is also a
descendant of the denylisted root `/`, yet validation accepts it. -/
theorem C5_witness :
    (allowed_tmp_paths.any fun t => specEqualsOrDescendant "/tmp/work" t) = true ∧
    specEqualsOrDescendant "/tmp/work" "/" = true ∧
    validate_directory true "/tmp/work" "/tmp/work" = none :=
  ⟨by decide, by decide, C5_allowlist_short_circuits "/tmp/work" "/tmp/work" (by decide)⟩

/-! ## Claim C9 -/

/-- C9: `get_subdirectories` returns exactly the names of the immediate
child directories of the listed directory (entries with `is_dir` true),
and when the directory read raises (missing directory, permission denied)
it returns the empty collection instead of propagating the error. -/
theorem C9_get_subdirectories_spec :
    get_subdirectories none = [] ∧
    ∀ (items : List DirEntry) (x : String),
      x ∈ get_subdirectories (some items) ↔
        ∃ e, e ∈ items ∧ e.is_dir = true ∧ e.name = x := by
  refine ⟨rfl, fun items x => ?_⟩
  simp [get_subdirectories, mem_subdirLoop]

/-! ## Claim C7 -/

/-- C7: for any two roots that both pass validation, the duplicates
reported by `compare_directories` are symmetric — `compare(A,B)` and
`compare(B,A)` agree as sets — and each is exactly the case-sensitive name
intersection of the two sides' immediate subdirectory listings. -/
theorem C7_compare_symmetric (a b : RootView) (r r' : ComparisonResult)
    (hab : compare_directories a b = Except.ok r)
    (hba : compare_directories b a = Except.ok r') :
    ∀ x, (x ∈ r.duplicates ↔ x ∈ r'.duplicates) ∧
      (x ∈ r.duplicates ↔
        x ∈ get_subdirectories a.iterdir ∧ x ∈ get_subdirectories b.iterdir) := by
  unfold compare_directories at hab hba
  split at hab
  · cases hab
  split at hab
  · cases hab
  cases hab
  split at hba
  · cases hba
  split at hba
  · cases hba
  cases hba
  intro x
  constructor
  · simp only [mem_nameIntersection]
    tauto
  · simp only [mem_nameIntersection]

/-- Concrete cleanup-side root for the C7 witness. -/
def cmpViewA : RootView :=
  ⟨true, "/data", "/tmp/cleanup",
   some [⟨"movieA", true⟩, ⟨"movieB", true⟩, ⟨"notes.txt", false⟩]⟩

/-- Concrete target-side root for the C7 witness. -/
def cmpViewB : RootView :=
  ⟨true, "/target", "/tmp/target", some [⟨"movieB", true⟩, ⟨"movieC", true⟩]⟩

/-- C7, witness: comparing `{movieA, movieB}` with `{movieB, movieC}` in
both orders yields the same duplicate set `{movieB}`. -/
theorem C7_witness :
    ("movieB" ∈ (ComparisonResult.mk ["movieB"] 1 2 2).duplicates ↔
      "movieB" ∈ (ComparisonResult.mk ["movieB"] 1 2 2).duplicates) ∧
    ("movieB" ∈ (ComparisonResult.mk ["movieB"] 1 2 2).duplicates ↔
      "movieB" ∈ get_subdirectories cmpViewA.iterdir ∧
      "movieB" ∈ get_subdirectories cmpViewB.iterdir) :=
  C7_compare_symmetric cmpViewA cmpViewB ⟨["movieB"], 1, 2, 2⟩ ⟨["movieB"], 1, 2, 2⟩
    rfl rfl "movieB"

/-! ## Claim C2 -/

/-- With `dry_run`, the removal loop leaves the filesystem untouched and
collects nothing. -/
theorem cleanupRemove_dry (paths : List String) (fs : List FSFile) :
    cleanupRemove true paths fs = (fs, [], []) := by
  induction paths with
  | nil => rfl
  | cons q rest ih => simp [cleanupRemove, ih]

/-- C2: cleanup with `dry_run = true` performs no filesystem mutation and
deletes no file; the result reports the full would-be-removed set in
`found_files`/`files_found` while `files_removed` is zero and
`removed_files` is empty, and a scan run immediately afterwards finds the
identical match set. -/
theorem C2_dry_run_no_mutation (m : String → String → Bool)
    (fs : List FSFile) (patterns : List String) :
    (cleanupBody m true fs patterns).2 = fs ∧
    (cleanupBody m true fs patterns).1.files_removed = 0 ∧
    (cleanupBody m true fs patterns).1.removed_files = [] ∧
    (cleanupBody m true fs patterns).1.error_details = [] ∧
    (cleanupBody m true fs patterns).1.found_files
      = (find_unwanted_files m fs patterns).found_files ∧
    (cleanupBody m true fs patterns).1.files_found
      = (find_unwanted_files m fs patterns).found_files.length ∧
    find_unwanted_files m (cleanupBody m true fs patterns).2 patterns
      = find_unwanted_files m fs patterns := by
  simp [cleanupBody, cleanupRemove_dry]

/-! ## Scanner lemmas for C3 and C8 -/

/-- A path is reported by the scan exactly when some walked file has that
path and its base name matches some pattern. -/
theorem mem_found_files (m : String → String → Bool) (pats : List String) :
    ∀ (fs : List FSFile) (x : String),
      x ∈ (find_unwanted_files m fs pats).found_files ↔
        ∃ f, f ∈ fs ∧ f.path = x ∧ (pats.find? fun p => m p f.name).isSome := by
  intro fs
  induction fs with
  | nil => simp [find_unwanted_files]
  | cons g rest ih =>
    intro x
    cases hg : pats.find? (fun p => m p g.name) with
    | none =>
      simp only [find_unwanted_files, hg, ih, List.mem_cons]
      constructor
      · rintro ⟨f, hf, rfl, hs⟩
        exact ⟨f, Or.inr hf, rfl, hs⟩
      · rintro ⟨f, (rfl | hf), rfl, hs⟩
        · simp [hg] at hs
        · exact ⟨f, hf, rfl, hs⟩
    | some p =>
      simp only [find_unwanted_files, hg, List.mem_cons, ih]
      constructor
      · rintro (rfl | ⟨f, hf, rfl, hs⟩)
        · exact ⟨g, Or.inl rfl, rfl, by simp [hg]⟩
        · exact ⟨f, Or.inr hf, rfl, hs⟩
      · rintro ⟨f, (rfl | hf), rfl, hs⟩
        · exact Or.inl rfl
        · exact Or.inr ⟨f, hf, rfl, hs⟩

/-- When the walked paths are distinct, a matching file's path appears in
the scan result exactly once. -/
theorem count_found_files (m : String → String → Bool) (pats : List String) :
    ∀ (fs : List FSFile) (f : FSFile),
      f ∈ fs → (fs.map FSFile.path).Nodup →
      (pats.find? fun p => m p f.name).isSome →
      (find_unwanted_files m fs pats).found_files.count f.path = 1 := by
  intro fs
  induction fs with
  | nil => intro f hf; cases hf
  | cons g rest ih =>
    intro f hf hnd hsome
    have hnd' : (rest.map FSFile.path).Nodup := (List.nodup_cons.mp hnd).2
    rcases List.mem_cons.mp hf with rfl | hfr
    · cases hg : pats.find? (fun p => m p f.name) with
      | none => rw [hg] at hsome; exact absurd hsome (by simp)
      | some p =>
        have hnot : f.path ∉ (find_unwanted_files m rest pats).found_files := by
          intro hmem
          obtain ⟨f', hf', hp', _⟩ := (mem_found_files m pats rest f.path).mp hmem
          exact (List.nodup_cons.mp hnd).1 (hp' ▸ List.mem_map_of_mem FSFile.path hf')
        simp only [find_unwanted_files, hg]
        rw [List.count_cons_self, List.count_eq_zero.mpr hnot]
    · have hne : f.path ≠ g.path := by
        intro h
        exact (List.nodup_cons.mp hnd).1 (h ▸ List.mem_map_of_mem FSFile.path hfr)
      cases hg : pats.find? (fun p => m p g.name) with
      | none =>
        simpa [find_unwanted_files, hg] using ih f hfr hnd' hsome
      | some p =>
        simp only [find_unwanted_files, hg]
        rw [List.count_cons_of_ne hne]
        exact ih f hfr hnd' hsome

/-- The `pattern_matches` dict records, for a matching file, exactly the
pattern the scan matched it with. -/
theorem pattern_matches_lookup (m : String → String → Bool) (pats : List String) :
    ∀ (fs : List FSFile) (f : FSFile) (p : String),
      f ∈ fs → (fs.map FSFile.path).Nodup →
      pats.find? (fun q => m q f.name) = some p →
      (find_unwanted_files m fs pats).pattern_matches.find? (fun e => e.1 == f.path)
        = some (f.path, p) := by
  intro fs
  induction fs with
  | nil => intro f p hf; cases hf
  | cons g rest ih =>
    intro f p hf hnd hfind
    have hnd' : (rest.map FSFile.path).Nodup := (List.nodup_cons.mp hnd).2
    rcases List.mem_cons.mp hf with rfl | hfr
    · simp [find_unwanted_files, hfind]
    · have hne : g.path ≠ f.path := by
        intro h
        exact (List.nodup_cons.mp hnd).1 (h ▸ List.mem_map_of_mem FSFile.path hfr)
      cases hg : pats.find? (fun q => m q g.name) with
      | none => simpa [find_unwanted_files, hg] using ih f p hfr hnd' hfind
      | some pg =>
        simp only [find_unwanted_files, hg]
        rw [List.find?_cons_of_neg _ (by simpa using hne)]
        exact ih f p hfr hnd' hfind

/-- The `file_sizes` dict records, for a matching file, its size when
`stat` succeeded and 0 otherwise. -/
theorem file_sizes_lookup (m : String → String → Bool) (pats : List String) :
    ∀ (fs : List FSFile) (f : FSFile),
      f ∈ fs → (fs.map FSFile.path).Nodup →
      (pats.find? fun q => m q f.name).isSome →
      (find_unwanted_files m fs pats).file_sizes.find? (fun e => e.1 == f.path)
        = some (f.path, if f.statOk then f.size else 0) := by
  intro fs
  induction fs with
  | nil => intro f hf; cases hf
  | cons g rest ih =>
    intro f hf hnd hsome
    have hnd' : (rest.map FSFile.path).Nodup := (List.nodup_cons.mp hnd).2
    rcases List.mem_cons.mp hf with rfl | hfr
    · cases hg : pats.find? (fun q => m q f.name) with
      | none => rw [hg] at hsome; exact absurd hsome (by simp)
      | some p => simp [find_unwanted_files, hg]
    · have hne : g.path ≠ f.path := by
        intro h
        exact (List.nodup_cons.mp hnd).1 (h ▸ List.mem_map_of_mem FSFile.path hfr)
      cases hg : pats.find? (fun q => m q g.name) with
      | none => simpa [find_unwanted_files, hg] using ih f hfr hnd' hsome
      | some pg =>
        simp only [find_unwanted_files, hg]
        rw [List.find?_cons_of_neg _ (by simpa using hne)]
        exact ih f hfr hnd' hsome

/-- `List.find?` over a pattern list split as `pre ++ p :: suf`, where
nothing in `pre` matches and `p` does, yields `p`. -/
theorem find?_first_of_split (m : String → String → Bool) (name p : String)
    (suf : List String) :
    ∀ pre : List String, (∀ q ∈ pre, m q name = false) → m p name = true →
      (pre ++ p :: suf).find? (fun q => m q name) = some p := by
  intro pre
  induction pre with
  | nil =>
    intro _ hp
    rw [List.nil_append]
    exact List.find?_cons_of_pos suf hp
  | cons q pre ih =>
    intro hpre hp
    have hq : m q name = false := hpre q (List.mem_cons_self q pre)
    rw [List.cons_append, List.find?_cons_of_neg _ (by simp [hq])]
    exact ih (fun r hr => hpre r (List.mem_cons_of_mem q hr)) hp

/-! ## Claim C3 -/

/-- Matcher used by the concrete witnesses: a "pattern" matches a base name
when it is a suffix of it (a stand-in instance of the abstract
`re.search` matcher). -/
def wMatcher : String → String → Bool := fun p n => p.data.isSuffixOf n.data

/-- Concrete walked filesystem used by the witnesses: two matching files,
one non-matching file, one matching file whose `stat` fails and one whose
`unlink` fails. -/
def wFiles : List FSFile :=
  [⟨"/tmp/d/a/x.tmp", "x.tmp", 5, true, true⟩,
   ⟨"/tmp/d/a/Thumbs.db", "Thumbs.db", 7, true, false⟩,
   ⟨"/tmp/d/a/keep.txt", "keep.txt", 3, true, true⟩,
   ⟨"/tmp/d/b/y.tmp", "y.tmp", 9, false, true⟩]

/-- C3: a file whose base name matches a pattern appears in the scan
result exactly once, and the pattern recorded for it is the first pattern
in list order that matches its base name (the pattern list being split as
`pre ++ p :: suf` with nothing in `pre` matching); files matching no
pattern are excluded. -/
theorem C3_scan_first_match (m : String → String → Bool) (fs : List FSFile)
    (pre suf : List String) (p : String) (f : FSFile)
    (hnd : (fs.map FSFile.path).Nodup) (hf : f ∈ fs)
    (hpre : ∀ q ∈ pre, m q f.name = false) (hp : m p f.name = true) :
    (find_unwanted_files m fs (pre ++ p :: suf)).found_files.count f.path = 1 ∧
    (find_unwanted_files m fs (pre ++ p :: suf)).pattern_matches.find?
        (fun e => e.1 == f.path) = some (f.path, p) ∧
    ∀ g ∈ fs, (∀ q ∈ pre ++ p :: suf, m q g.name = false) →
      g.path ∉ (find_unwanted_files m fs (pre ++ p :: suf)).found_files := by
  have hfind := find?_first_of_split m f.name p suf pre hpre hp
  refine ⟨count_found_files m _ fs f hf hnd (by simp [hfind]),
    pattern_matches_lookup m _ fs f p hf hnd hfind, ?_⟩
  intro g hg hnone hmem
  obtain ⟨f', hf', hp', hs⟩ := (mem_found_files m _ fs g.path).mp hmem
  have hfg : f' = g := List.inj_on_of_nodup_map hnd hf' hg hp'
  subst hfg
  rw [List.find?_eq_none.mpr (by intro q hq; simp [hnone q hq])] at hs
  exact absurd hs (by simp)

/-- C3, witness: with patterns `["tmp", "db"]`, `Thumbs.db` is reported
once with the pattern `"db"` (its first match), and `keep.txt` is
excluded. -/
theorem C3_witness :
    (find_unwanted_files wMatcher wFiles ["tmp", "db"]).found_files.count
        "/tmp/d/a/Thumbs.db" = 1 ∧
    (find_unwanted_files wMatcher wFiles ["tmp", "db"]).pattern_matches.find?
        (fun e => e.1 == "/tmp/d/a/Thumbs.db") = some ("/tmp/d/a/Thumbs.db", "db") ∧
    "/tmp/d/a/keep.txt" ∉
      (find_unwanted_files wMatcher wFiles ["tmp", "db"]).found_files := by
  have h := C3_scan_first_match wMatcher wFiles ["tmp"] [] "db"
      ⟨"/tmp/d/a/Thumbs.db", "Thumbs.db", 7, true, false⟩
      (by decide) (by decide) (by decide) (by decide)
  exact ⟨h.1, h.2.1,
    h.2.2 ⟨"/tmp/d/a/keep.txt", "keep.txt", 3, true, true⟩ (by decide) (by decide)⟩

/-! ## Claim C8 -/

/-- C8: a matched file whose `stat` fails is still recorded, with size 0,
and the failure aborts nothing: the file is in `found_files` and every
other matching file is reported as well. -/
theorem C8_stat_failure_recorded (m : String → String → Bool)
    (fs : List FSFile) (pats : List String) (f : FSFile)
    (hnd : (fs.map FSFile.path).Nodup) (hf : f ∈ fs) (hstat : f.statOk = false)
    (hsome : (pats.find? fun q => m q f.name).isSome) :
    (find_unwanted_files m fs pats).file_sizes.find? (fun e => e.1 == f.path)
      = some (f.path, 0) ∧
    f.path ∈ (find_unwanted_files m fs pats).found_files ∧
    ∀ g ∈ fs, (pats.find? fun q => m q g.name).isSome →
      g.path ∈ (find_unwanted_files m fs pats).found_files := by
  refine ⟨?_, ?_, ?_⟩
  · have h := file_sizes_lookup m pats fs f hf hnd hsome
    simpa [hstat] using h
  · exact (mem_found_files m pats fs f.path).mpr ⟨f, hf, rfl, hsome⟩
  · intro g hg hgs
    exact (mem_found_files m pats fs g.path).mpr ⟨g, hg, rfl, hgs⟩

/-- C8, witness: `y.tmp`, whose `stat` fails, is recorded with size 0 and
found, and the other matching file `x.tmp` is found too. -/
theorem C8_witness :
    (find_unwanted_files wMatcher wFiles ["tmp", "db"]).file_sizes.find?
        (fun e => e.1 == "/tmp/d/b/y.tmp") = some ("/tmp/d/b/y.tmp", 0) ∧
    "/tmp/d/b/y.tmp" ∈
      (find_unwanted_files wMatcher wFiles ["tmp", "db"]).found_files ∧
    "/tmp/d/a/x.tmp" ∈
      (find_unwanted_files wMatcher wFiles ["tmp", "db"]).found_files := by
  have h := C8_stat_failure_recorded wMatcher wFiles ["tmp", "db"]
      ⟨"/tmp/d/b/y.tmp", "y.tmp", 9, false, true⟩
      (by decide) (by decide) (by decide) (by decide)
  exact ⟨h.1, h.2.1,
    h.2.2 ⟨"/tmp/d/a/x.tmp", "x.tmp", 5, true, true⟩ (by decide) (by decide)⟩

/-! ## Removal-loop lemmas for C4 -/

/-- Unfolding step of the removal loop: the file at the head path is
present and its `unlink` succeeds. -/
theorem cleanupRemove_step_ok (q : String) (rest : List String) (fs : List FSFile)
    (g : FSFile) (hfind : fs.find? (fun h => h.path == q) = some g)
    (hok : g.unlinkOk = true) :
    cleanupRemove false (q :: rest) fs
      = ((cleanupRemove false rest (fs.eraseP (fun h => h.path == q))).1,
         q :: (cleanupRemove false rest (fs.eraseP (fun h => h.path == q))).2.1,
         (cleanupRemove false rest (fs.eraseP (fun h => h.path == q))).2.2) := by
  simp only [cleanupRemove, hfind, hok]
  simp

/-- Unfolding step of the removal loop: the file at the head path is
present but its `unlink` raises; the error is recorded and the loop
continues on an unchanged filesystem. -/
theorem cleanupRemove_step_fail (q : String) (rest : List String) (fs : List FSFile)
    (g : FSFile) (hfind : fs.find? (fun h => h.path == q) = some g)
    (hok : g.unlinkOk = false) :
    cleanupRemove false (q :: rest) fs
      = ((cleanupRemove false rest fs).1,
         (cleanupRemove false rest fs).2.1,
         ("Failed to remove " ++ q) :: (cleanupRemove false rest fs).2.2) := by
  simp only [cleanupRemove, hfind, hok]
  simp

/-- Unfolding step of the removal loop: no file at the head path (it
vanished), so `unlink` raises `FileNotFoundError`; recorded likewise. -/
theorem cleanupRemove_step_none (q : String) (rest : List String) (fs : List FSFile)
    (hfind : fs.find? (fun h => h.path == q) = none) :
    cleanupRemove false (q :: rest) fs
      = ((cleanupRemove false rest fs).1,
         (cleanupRemove false rest fs).2.1,
         ("Failed to remove " ++ q) :: (cleanupRemove false rest fs).2.2) := by
  simp only [cleanupRemove, hfind]
  simp

/-- On a filesystem with distinct paths, looking a member file up by its
own path finds exactly it. -/
theorem find?_path_self (f : FSFile) :
    ∀ (fs : List FSFile), f ∈ fs → (fs.map FSFile.path).Nodup →
      fs.find? (fun g => g.path == f.path) = some f := by
  intro fs
  induction fs with
  | nil => intro h; cases h
  | cons g rest ih =>
    intro hf hnd
    rcases List.mem_cons.mp hf with rfl | hfr
    · exact List.find?_cons_of_pos rest (by simp)
    · have hne : g.path ≠ f.path := by
        intro h
        exact (List.nodup_cons.mp hnd).1 (h ▸ List.mem_map_of_mem FSFile.path hfr)
      rw [List.find?_cons_of_neg _ (by simpa using hne)]
      exact ih hfr (List.nodup_cons.mp hnd).2

/-- Unlinking some other path keeps a file in the filesystem. -/
theorem mem_eraseP_path (f : FSFile) (q : String) (hne : f.path ≠ q)
    (fs : List FSFile) (hf : f ∈ fs) :
    f ∈ fs.eraseP (fun g => g.path == q) := by
  rw [List.mem_eraseP_of_neg (by simpa using hne)]
  exact hf

/-- Unlinking preserves distinctness of the remaining paths. -/
theorem nodup_eraseP_path (q : String) (fs : List FSFile)
    (hnd : (fs.map FSFile.path).Nodup) :
    ((fs.eraseP (fun g => g.path == q)).map FSFile.path).Nodup :=
  List.Nodup.sublist (List.Sublist.map FSFile.path (List.eraseP_sublist fs)) hnd

/-- A deletable file whose path is in the processed list ends up in
`removed_files`, regardless of failures elsewhere in the list. -/
theorem cleanupRemove_removes (f : FSFile) :
    ∀ (paths : List String) (fs : List FSFile),
      f ∈ fs → (fs.map FSFile.path).Nodup → f.unlinkOk = true →
      f.path ∈ paths → f.path ∈ (cleanupRemove false paths fs).2.1 := by
  intro paths
  induction paths with
  | nil => intro fs _ _ _ h; cases h
  | cons q rest ih =>
    intro fs hf hnd hok hmem
    by_cases hq : f.path = q
    · subst hq
      rw [cleanupRemove_step_ok f.path rest fs f (find?_path_self f fs hf hnd) hok]
      exact List.mem_cons_self _ _
    · have hmem' : f.path ∈ rest := by
        rcases List.mem_cons.mp hmem with h | h
        · exact absurd h hq
        · exact h
      cases hfind : fs.find? (fun h => h.path == q) with
      | none =>
        rw [cleanupRemove_step_none q rest fs hfind]
        exact ih fs hf hnd hok hmem'
      | some g =>
        cases hgok : g.unlinkOk with
        | true =>
          rw [cleanupRemove_step_ok q rest fs g hfind hgok]
          exact List.mem_cons_of_mem q
            (ih _ (mem_eraseP_path f q hq fs hf) (nodup_eraseP_path q fs hnd) hok hmem')
        | false =>
          rw [cleanupRemove_step_fail q rest fs g hfind hgok]
          exact ih fs hf hnd hok hmem'

/-- An undeletable file's path never enters `removed_files`. -/
theorem cleanupRemove_not_removed (f : FSFile) :
    ∀ (paths : List String) (fs : List FSFile),
      f ∈ fs → (fs.map FSFile.path).Nodup → f.unlinkOk = false →
      f.path ∉ (cleanupRemove false paths fs).2.1 := by
  intro paths
  induction paths with
  | nil => intro fs _ _ _; simp [cleanupRemove]
  | cons q rest ih =>
    intro fs hf hnd hok
    by_cases hq : f.path = q
    · subst hq
      rw [cleanupRemove_step_fail f.path rest fs f (find?_path_self f fs hf hnd) hok]
      exact ih fs hf hnd hok
    · cases hfind : fs.find? (fun h => h.path == q) with
      | none =>
        rw [cleanupRemove_step_none q rest fs hfind]
        exact ih fs hf hnd hok
      | some g =>
        cases hgok : g.unlinkOk with
        | true =>
          rw [cleanupRemove_step_ok q rest fs g hfind hgok]
          intro hcon
          rcases List.mem_cons.mp hcon with h | h
          · exact hq h
          · exact ih _ (mem_eraseP_path f q hq fs hf) (nodup_eraseP_path q fs hnd) hok h
        | false =>
          rw [cleanupRemove_step_fail q rest fs g hfind hgok]
          exact ih fs hf hnd hok

/-- An undeletable file whose path is in the processed list produces an
error entry, and the loop keeps going. -/
theorem cleanupRemove_error (f : FSFile) :
    ∀ (paths : List String) (fs : List FSFile),
      f ∈ fs → (fs.map FSFile.path).Nodup → f.unlinkOk = false →
      f.path ∈ paths →
      ("Failed to remove " ++ f.path) ∈ (cleanupRemove false paths fs).2.2 := by
  intro paths
  induction paths with
  | nil => intro fs _ _ _ h; cases h
  | cons q rest ih =>
    intro fs hf hnd hok hmem
    by_cases hq : f.path = q
    · subst hq
      rw [cleanupRemove_step_fail f.path rest fs f (find?_path_self f fs hf hnd) hok]
      exact List.mem_cons_self _ _
    · have hmem' : f.path ∈ rest := by
        rcases List.mem_cons.mp hmem with h | h
        · exact absurd h hq
        · exact h
      cases hfind : fs.find? (fun h => h.path == q) with
      | none =>
        rw [cleanupRemove_step_none q rest fs hfind]
        exact List.mem_cons_of_mem _ (ih fs hf hnd hok hmem')
      | some g =>
        cases hgok : g.unlinkOk with
        | true =>
          rw [cleanupRemove_step_ok q rest fs g hfind hgok]
          exact ih _ (mem_eraseP_path f q hq fs hf) (nodup_eraseP_path q fs hnd) hok hmem'
        | false =>
          rw [cleanupRemove_step_fail q rest fs g hfind hgok]
          exact List.mem_cons_of_mem _ (ih fs hf hnd hok hmem')

/-- When every pattern compiles, a single match attempt never raises. -/
theorem tryPatterns_okLift (m : String → String → Bool) (name : String) :
    ∀ pats : List String,
      tryPatterns (okLift m) pats name = .ok (pats.find? fun p => m p name) := by
  intro pats
  induction pats with
  | nil => rfl
  | cons p rest ih =>
    cases hp : m p name with
    | true => simp [tryPatterns, okLift, hp, List.find?_cons_of_pos _ hp]
    | false =>
      rw [List.find?_cons_of_neg _ (by simp [hp])]
      simpa [tryPatterns, okLift, hp] using ih

/-- When every pattern compiles, the fallible walk agrees with the total
one and never raises. -/
theorem findE_okLift (m : String → String → Bool) (pats : List String) :
    ∀ fs : List FSFile,
      find_unwanted_filesE (okLift m) fs pats
        = .ok (find_unwanted_files m fs pats) := by
  intro fs
  induction fs with
  | nil => rfl
  | cons f rest ih =>
    cases hf : pats.find? (fun p => m p f.name) with
    | none =>
      simp only [find_unwanted_filesE, tryPatterns_okLift, hf]
      simpa [find_unwanted_files, hf] using ih
    | some p =>
      simp only [find_unwanted_filesE, tryPatterns_okLift, hf, ih]
      simp [find_unwanted_files, hf]

/-! ## Claim C4 -/

/-- C4: with `dry_run = false`, deletion of each matched file is attempted
independently — an undeletable matched file yields an entry in
`error_details` and does not appear in `removed_files`, every deletable
matched file is removed regardless of other failures, and the endpoint
still returns the normal (`Except.ok`) result, so a per-file failure never
escalates to an operation-level failure. -/
theorem C4_per_file_failures_isolated (m : String → String → Bool)
    (fs : List FSFile) (pats : List String)
    (hnd : (fs.map FSFile.path).Nodup) :
    (∀ f ∈ fs, f.path ∈ (cleanupBody m false fs pats).1.found_files →
       f.unlinkOk = false →
       ("Failed to remove " ++ f.path) ∈ (cleanupBody m false fs pats).1.error_details ∧
       f.path ∉ (cleanupBody m false fs pats).1.removed_files) ∧
    (∀ f ∈ fs, f.path ∈ (cleanupBody m false fs pats).1.found_files →
       f.unlinkOk = true →
       f.path ∈ (cleanupBody m false fs pats).1.removed_files) ∧
    (∀ (pathExists : Bool) (cd ds : String),
       validate_directory pathExists cd ds = none →
       cleanup_unwanted_files (okLift m) false pathExists cd ds fs (some pats)
         = Except.ok (cleanupBody m false fs pats)) := by
  refine ⟨?_, ?_, ?_⟩
  · intro f hf hfound hok
    exact ⟨cleanupRemove_error f _ fs hf hnd hok hfound,
           cleanupRemove_not_removed f _ fs hf hnd hok⟩
  · intro f hf hfound hok
    exact cleanupRemove_removes f _ fs hf hnd hok hfound
  · intro pathExists cd ds hval
    simp [cleanup_unwanted_files, hval, findE_okLift, cleanupBody]

/-- C4, witness: in a real run over the concrete tree, the undeletable
`Thumbs.db` lands in `error_details` and not in `removed_files`, the
deletable `x.tmp` is removed anyway, and the endpoint returns the normal
result. -/
theorem C4_witness :
    (("Failed to remove /tmp/d/a/Thumbs.db" :
        String) ∈ (cleanupBody wMatcher false wFiles ["tmp", "db"]).1.error_details ∧
      "/tmp/d/a/Thumbs.db" ∉
        (cleanupBody wMatcher false wFiles ["tmp", "db"]).1.removed_files) ∧
    "/tmp/d/a/x.tmp" ∈ (cleanupBody wMatcher false wFiles ["tmp", "db"]).1.removed_files ∧
    cleanup_unwanted_files (okLift wMatcher) false true "/data" "/tmp/d" wFiles
        (some ["tmp", "db"])
      = Except.ok (cleanupBody wMatcher false wFiles ["tmp", "db"]) := by
  have h := C4_per_file_failures_isolated wMatcher wFiles ["tmp", "db"] (by decide)
  exact ⟨h.1 ⟨"/tmp/d/a/Thumbs.db", "Thumbs.db", 7, true, false⟩ (by decide)
      (by decide) rfl,
    h.2.1 ⟨"/tmp/d/a/x.tmp", "x.tmp", 5, true, true⟩ (by decide) (by decide) rfl,
    h.2.2 true "/data" "/tmp/d" (by decide)⟩

/-! ## Claim C6 -/

/-- A denylisted, non-allowlisted existing path makes `validate_directory`
raise the ProtectedPath error. -/
theorem validate_protected_eq (cd ds : String)
    (hallow : allowed_tmp_paths.any (fun t => pathWithin ds t) = false)
    (hdeny : critical_dirs.any (fun c => pathWithin ds c) = true) :
    validate_directory true cd ds = some protectedPathError := by
  unfold validate_directory
  simp [hallow, hdeny, protectedPathError]

/-- C6: in every scan and cleanup invocation the two validator errors are
surfaced with classifications (status code plus detail) distinct from each
other and from the HTTP 500 operational error: a non-existent root yields
the wrapped DirectoryNotFound detail ("... not found"), a protected root
yields the wrapped ProtectedPath detail ("... protected system location"),
the two surfaced exceptions are never equal, and neither ever equals any
status-500 exception.  (Both are surfaced with status 400: the endpoints'
`except` blocks re-wrap the validator's exception, so the not-found case
keeps its distinct detail but not a 404 status.) -/
theorem C6_validator_errors_distinct (pm : String → String → Except String Bool)
    (fs : List FSFile) (patsOpt : Option (List String)) (cd ds : String) (dr : Bool)
    (hallow : allowed_tmp_paths.any (fun t => pathWithin ds t) = false)
    (hdeny : critical_dirs.any (fun c => pathWithin ds c) = true) :
    scan_for_unwanted_files pm false cd ds fs patsOpt
      = .error ⟨400, "Invalid cleanup directory: " ++ (directoryNotFoundError cd).detail⟩ ∧
    cleanup_unwanted_files pm dr false cd ds fs patsOpt
      = .error ⟨400, "Invalid cleanup directory: " ++ (directoryNotFoundError cd).detail⟩ ∧
    scan_for_unwanted_files pm true cd ds fs patsOpt
      = .error ⟨400, "Invalid cleanup directory: " ++ protectedPathError.detail⟩ ∧
    cleanup_unwanted_files pm dr true cd ds fs patsOpt
      = .error ⟨400, "Invalid cleanup directory: " ++ protectedPathError.detail⟩ ∧
    (⟨400, "Invalid cleanup directory: " ++ (directoryNotFoundError cd).detail⟩ : HTTPException)
      ≠ ⟨400, "Invalid cleanup directory: " ++ protectedPathError.detail⟩ ∧
    (∀ msg : String,
      (⟨400, "Invalid cleanup directory: " ++ (directoryNotFoundError cd).detail⟩ : HTTPException)
        ≠ ⟨500, msg⟩ ∧
      (⟨400, "Invalid cleanup directory: " ++ protectedPathError.detail⟩ : HTTPException)
        ≠ ⟨500, msg⟩) := by
  have hvp := validate_protected_eq cd ds hallow hdeny
  refine ⟨?_, ?_, ?_, ?_, ?_, ?_⟩
  · simp [scan_for_unwanted_files, validate_directory, directoryNotFoundError]
  · simp [cleanup_unwanted_files, validate_directory, directoryNotFoundError]
  · simp [scan_for_unwanted_files, hvp]
  · simp [cleanup_unwanted_files, hvp]
  · intro h
    cases h
  · intro msg
    refine ⟨fun h => ?_, fun h => ?_⟩
    · cases h
    · cases h

/-- C6, witness: scanning with the root missing and with the root `/etc`
yields the two distinct wrapped validator errors. -/
theorem C6_witness :
    scan_for_unwanted_files (okLift wMatcher) false "/data" "/etc" wFiles none
      = .error ⟨400, "Invalid cleanup directory: "
                ++ (directoryNotFoundError "/data").detail⟩ ∧
    scan_for_unwanted_files (okLift wMatcher) true "/data" "/etc" wFiles none
      = .error ⟨400, "Invalid cleanup directory: " ++ protectedPathError.detail⟩ ∧
    (⟨400, "Invalid cleanup directory: " ++ (directoryNotFoundError "/data").detail⟩
        : HTTPException)
      ≠ ⟨400, "Invalid cleanup directory: " ++ protectedPathError.detail⟩ := by
  have h := C6_validator_errors_distinct (okLift wMatcher) wFiles none "/data" "/etc"
      true (by decide) (by decide)
  exact ⟨h.1, h.2.2.1, h.2.2.2.2.1⟩

/-! ## Claim C10 -/

/-- A matcher in which the single pattern `[` raises (an unterminated
character set does not compile) and every other pattern behaves like the
witness matcher. -/
def pmBad : String → String → Except String Bool :=
  fun p n => if p == "[" then .error "unterminated character set" else .ok (wMatcher p n)

/-- C10: with a pattern list containing a non-compiling regular
expression, scan and cleanup fail wholesale with the operation-level HTTP
500 error as soon as traversal reaches the first file — no partial result
is returned and nothing is recorded as a per-file error — while with no
files to traverse the invalid pattern goes unnoticed, showing it is not
rejected at the boundary (validation inspects only the directory). -/
theorem C10_invalid_pattern_escalates (pm : String → String → Except String Bool)
    (badp emsg : String) (hbad : ∀ n, pm badp n = .error emsg)
    (f : FSFile) (rest : List FSFile) (cd ds : String) (dr : Bool)
    (hval : validate_directory true cd ds = none) :
    scan_for_unwanted_files pm true cd ds (f :: rest) (some [badp])
      = .error ⟨500, "Error during scan: " ++ emsg⟩ ∧
    cleanup_unwanted_files pm dr true cd ds (f :: rest) (some [badp])
      = .error ⟨500, "Error during cleanup: " ++ emsg⟩ ∧
    scan_for_unwanted_files pm true cd ds [] (some [badp])
      = .ok ⟨0, 0, [], []⟩ := by
  have hstep : find_unwanted_filesE pm (f :: rest) [badp] = .error emsg := by
    simp [find_unwanted_filesE, tryPatterns, hbad f.name]
  refine ⟨?_, ?_, ?_⟩
  · simp [scan_for_unwanted_files, hval, hstep]
  · simp [cleanup_unwanted_files, hval, hstep]
  · simp [scan_for_unwanted_files, hval, find_unwanted_filesE]

/-- C10, witness: the pattern list `["["]` makes scan and cleanup over the
concrete tree fail with the 500 operation error, while over an empty tree
the scan still succeeds. -/
theorem C10_witness :
    scan_for_unwanted_files pmBad true "/data" "/tmp/d" wFiles (some ["["])
      = .error ⟨500, "Error during scan: unterminated character set"⟩ ∧
    cleanup_unwanted_files pmBad true true "/data" "/tmp/d" wFiles (some ["["])
      = .error ⟨500, "Error during cleanup: unterminated character set"⟩ ∧
    scan_for_unwanted_files pmBad true "/data" "/tmp/d" [] (some ["["])
      = .ok ⟨0, 0, [], []⟩ := by
  have h := C10_invalid_pattern_escalates pmBad "[" "unterminated character set"
      (fun n => rfl) ⟨"/tmp/d/a/x.tmp", "x.tmp", 5, true, true⟩
      (wFiles.drop 1) "/data" "/tmp/d" true (by decide)
  exact h

end Bronson
